import Mathlib

/-!
# MySSH — verification of the credential store, crypto engine and UI state logic

MySSH is a Tauri-based SSH client: a Vue frontend (under `src/`) drives a
backend exposing server-profile CRUD, password-protected encrypted
backup/export, SSH shell sessions and SFTP sessions.  This file gives a
shallow embedding of the parts of the program the specification talks
about and proves the specification's testable properties over it.

Byte strings are modelled as `List Nat`; fresh randomness (salts, nonces,
tab timestamps) is modelled as explicit parameters.
-/

namespace MySSH

/-! ## Injective codecs

The backend serializes the profile list before encrypting it.  The exact
wire format is a backend implementation detail; we model serialization by
an explicit injective encoding of profiles into naturals (via `Nat.pair`)
followed by base-256 byte expansion, together with total decoders that
invert the encoders on their image. -/

/-- Encode a list into a single natural, pairing each encoded element with
the encoding of the tail. -/
def encodeListWith (f : α → Nat) : List α → Nat
  | [] => 0
  | a :: l => Nat.pair (f a) (encodeListWith f l) + 1

/-- Total decoder for `encodeListWith`; junk inputs decode to some list. -/
def decodeListWith (g : Nat → α) : Nat → List α
  | 0 => []
  | n + 1 => g (Nat.unpair n).1 :: decodeListWith g (Nat.unpair n).2
decreasing_by exact Nat.lt_succ_of_le (Nat.unpair_right_le n)

/-- Encode an optional value into a natural. -/
def encodeOptionWith (f : α → Nat) : Option α → Nat
  | none => 0
  | some a => f a + 1

/-- Total decoder for `encodeOptionWith`. -/
def decodeOptionWith (g : Nat → α) : Nat → Option α
  | 0 => none
  | n + 1 => some (g n)

/-- Expand a natural into its little-endian base-256 digits. -/
def natToBytes : Nat → List Nat
  | 0 => []
  | n + 1 => ((n + 1) % 256) :: natToBytes ((n + 1) / 256)
decreasing_by exact Nat.div_lt_self (Nat.succ_pos n) (by omega)

/-- Reassemble a natural from little-endian base-256 digits. -/
def bytesToNat : List Nat → Nat
  | [] => 0
  | b :: l => b + 256 * bytesToNat l

/-! ## Data model

Modelled from the spec: the backend's Rust data model is not part of the
frontend sources, so `ServerProfile` follows §3 of the specification:
id, name, host, port, username, a tagged auth variant
(Password vs PrivateKey), an optional proxy configuration and notes.
Strings are byte strings (`List Nat`). -/

/-- Authentication variant of a server profile (spec §3):
password or private key with optional passphrase. -/
inductive AuthMethod where
  | password (secret : List Nat)
  | privateKey (keyMaterial : List Nat) (passphrase : Option (List Nat))
deriving DecidableEq

/-- Proxy protocol variant (spec §3): SOCKS5 or HTTP. -/
inductive ProxyKind where
  | socks5
  | http
deriving DecidableEq

/-- Proxy configuration of a profile (spec §3). -/
structure ProxyConfig where
  kind : ProxyKind
  host : List Nat
  port : Nat
  username : Option (List Nat)
  password : Option (List Nat)
deriving DecidableEq

/-- A stored server profile (spec §3). -/
structure ServerProfile where
  id : Nat
  name : List Nat
  host : List Nat
  port : Nat
  username : List Nat
  auth : AuthMethod
  proxy : Option ProxyConfig
  notes : List Nat
deriving DecidableEq

def encodeAuth : AuthMethod → Nat
  | .password s => Nat.pair 0 (encodeListWith id s)
  | .privateKey k p =>
      Nat.pair 1 (Nat.pair (encodeListWith id k) (encodeOptionWith (encodeListWith id) p))

def decodeAuth (n : Nat) : AuthMethod :=
  if (Nat.unpair n).1 = 0 then
    .password (decodeListWith id (Nat.unpair n).2)
  else
    .privateKey (decodeListWith id (Nat.unpair (Nat.unpair n).2).1)
      (decodeOptionWith (decodeListWith id) (Nat.unpair (Nat.unpair n).2).2)

def encodeProxyKind : ProxyKind → Nat
  | .socks5 => 0
  | .http => 1

def decodeProxyKind (n : Nat) : ProxyKind :=
  if n = 0 then .socks5 else .http

def encodeProxy (c : ProxyConfig) : Nat :=
  Nat.pair (encodeProxyKind c.kind)
    (Nat.pair (encodeListWith id c.host)
      (Nat.pair c.port
        (Nat.pair (encodeOptionWith (encodeListWith id) c.username)
          (encodeOptionWith (encodeListWith id) c.password))))

def decodeProxy (n : Nat) : ProxyConfig :=
  { kind := decodeProxyKind (Nat.unpair n).1
    host := decodeListWith id (Nat.unpair (Nat.unpair n).2).1
    port := (Nat.unpair (Nat.unpair (Nat.unpair n).2).2).1
    username := decodeOptionWith (decodeListWith id)
      (Nat.unpair (Nat.unpair (Nat.unpair (Nat.unpair n).2).2).2).1
    password := decodeOptionWith (decodeListWith id)
      (Nat.unpair (Nat.unpair (Nat.unpair (Nat.unpair n).2).2).2).2 }

def encodeProfile (p : ServerProfile) : Nat :=
  Nat.pair p.id
    (Nat.pair (encodeListWith id p.name)
      (Nat.pair (encodeListWith id p.host)
        (Nat.pair p.port
          (Nat.pair (encodeListWith id p.username)
            (Nat.pair (encodeAuth p.auth)
              (Nat.pair (encodeOptionWith encodeProxy p.proxy)
                (encodeListWith id p.notes)))))))

def decodeProfile (n : Nat) : ServerProfile :=
  { id := (Nat.unpair n).1
    name := decodeListWith id (Nat.unpair (Nat.unpair n).2).1
    host := decodeListWith id (Nat.unpair (Nat.unpair (Nat.unpair n).2).2).1
    port := (Nat.unpair (Nat.unpair (Nat.unpair (Nat.unpair n).2).2).2).1
    username := decodeListWith id
      (Nat.unpair (Nat.unpair (Nat.unpair (Nat.unpair (Nat.unpair n).2).2).2).2).1
    auth := decodeAuth
      (Nat.unpair (Nat.unpair (Nat.unpair (Nat.unpair (Nat.unpair (Nat.unpair n).2).2).2).2).2).1
    proxy := decodeOptionWith decodeProxy
      (Nat.unpair (Nat.unpair (Nat.unpair (Nat.unpair (Nat.unpair (Nat.unpair (Nat.unpair n).2).2).2).2).2).2).1
    notes := decodeListWith id
      (Nat.unpair (Nat.unpair (Nat.unpair (Nat.unpair (Nat.unpair (Nat.unpair (Nat.unpair n).2).2).2).2).2).2).2 }

/-- Serialization of the profile list into a byte string: the injective
`Nat.pair`-based encoding expanded into base-256 bytes.  Modelled from the
spec: the backend's serialization format is not in the frontend sources;
the spec only requires that a `BackupBlob` "decrypts only to a serialized
list of ServerProfile records". -/
def serializeProfiles (ps : List ServerProfile) : List Nat :=
  natToBytes (encodeListWith encodeProfile ps)

/-- Total deserialization inverting `serializeProfiles`. -/
def deserializeProfiles (bs : List Nat) : List ServerProfile :=
  decodeListWith decodeProfile (bytesToNat bs)

/-! ## CryptoEngine

Modelled from the spec: the AES-256-GCM engine lives in the Rust backend,
which is absent from the frontend sources.  Spec §4.1 requires an AEAD
cipher: `encrypt` is length-preserving and keyed by (key, nonce);
`decrypt` fails closed, returning a plaintext exactly when the
authentication tag verifies.  The tag is modelled as an ideal MAC —
injective in (key, nonce, ciphertext) — which is the model in which the
spec's fail-closed guarantee ("any tag mismatch or corruption returns an
error, never garbage plaintext"; "decrypting under a wrong password always
fails") holds exactly.  Fresh randomness (salt, nonce) is passed as an
explicit parameter. -/

/-- Key derivation (spec §4.1): deterministic in (password, salt,
iterations), and — ideal-KDF model — injective, so distinct passwords
never collide on the same key. -/
def deriveKey (password : List Nat) (salt iterations : Nat) : Nat :=
  Nat.pair (encodeListWith id password) (Nat.pair salt iterations)

/-- Keystream byte of the modelled length-preserving cipher. -/
def padOf (key nonce : Nat) : Nat :=
  Nat.pair key nonce % 256

/-- Raw cipher: add the keystream byte mod 256 to every plaintext byte. -/
def encryptBytes (pt : List Nat) (key nonce : Nat) : List Nat :=
  pt.map (fun b => (b + padOf key nonce) % 256)

/-- Raw cipher inverse: subtract the keystream byte mod 256. -/
def decryptBytes (ct : List Nat) (key nonce : Nat) : List Nat :=
  ct.map (fun b => (b + 256 - padOf key nonce) % 256)

/-- Ideal authentication tag over (key, nonce, ciphertext). -/
def tagOf (key nonce : Nat) (ct : List Nat) : Nat :=
  Nat.pair key (Nat.pair nonce (encodeListWith id ct))

/-- AEAD encryption (spec §4.1): returns ciphertext together with its
authentication tag; the nonce is fresh randomness passed explicitly. -/
def encrypt (pt : List Nat) (key nonce : Nat) : List Nat × Nat :=
  (encryptBytes pt key nonce, tagOf key nonce (encryptBytes pt key nonce))

/-- AEAD decryption (spec §4.1): verifies the tag and fails closed
(`none` standing for AuthenticationError) on any mismatch. -/
def decrypt (nonce : Nat) (ctTag : List Nat × Nat) (key : Nat) : Option (List Nat) :=
  if tagOf key nonce ctTag.1 = ctTag.2 then
    some (decryptBytes ctTag.1 key nonce)
  else
    none

/-! ## CredentialStore: export / import

Modelled from the spec: the store itself is backend state; §4.3 specifies
`export` (derive a fresh-salt key, serialize all profiles, encrypt; the
blob is the self-describing byte sequence version ‖ salt ‖ nonce ‖ tag ‖
ciphertext of §3/§6) and `import` (re-derive the key from the blob's
stored salt; on tag mismatch fail without mutating the store; on success
merge with fresh ids and return the count added).  Salt, nonce and tag
are kept as single naturals in the serialized blob. -/

def formatVersion : Nat := 1

/-- Export the store under a password (spec §4.3): fresh salt and nonce
are explicit parameters standing for the randomness drawn per call. -/
def exportStore (store : List ServerProfile) (password : List Nat)
    (salt nonce iterations : Nat) : List Nat :=
  let key := deriveKey password salt iterations
  let ct := (encrypt (serializeProfiles store) key nonce).1
  formatVersion :: salt :: nonce :: (encrypt (serializeProfiles store) key nonce).2 :: ct

/-- Parse a backup blob and decrypt it with the key re-derived from the
blob's stored salt (spec §4.3); `none` stands for CryptoError. -/
def decryptBlob (blob password : List Nat) (iterations : Nat) : Option (List Nat) :=
  match blob with
  | v :: salt :: nonce :: tag :: ct =>
      if v = formatVersion then
        decrypt nonce (ct, tag) (deriveKey password salt iterations)
      else
        none
  | _ => none

/-- Re-identify imported profiles with consecutive fresh ids. -/
def withFreshIds (base : Nat) : List ServerProfile → List ServerProfile
  | [] => []
  | p :: rest => { p with id := base } :: withFreshIds (base + 1) rest

/-- Smallest id strictly above every id in the store. -/
def freshId (store : List ServerProfile) : Nat :=
  (store.map (fun p => p.id)).foldr max 0 + 1

/-- Import a backup blob (spec §4.3): on decryption failure the returned
store is the input store unchanged and no count is reported; on success
the decrypted profiles are merged under fresh ids and their count is
returned. -/
def importOp (store : List ServerProfile) (blob password : List Nat)
    (iterations : Nat) : List ServerProfile × Option Nat :=
  match decryptBlob blob password iterations with
  | none => (store, none)
  | some pt =>
      let imported := deserializeProfiles pt
      (store ++ withFreshIds (freshId store) imported, some imported.length)

/-! ## CredentialStore: CRUD

Modelled from the spec (§4.3): the store itself is backend state not in
the frontend sources.  `save` assigns a new unique id when the request
carries none, validates required fields, and upserts by id; `get` looks a
profile up by id (`none` = NotFoundError); `delete` removes an existing
id permanently (`none` = NotFoundError). -/

/-- A save request: a profile whose id may be absent (spec §4.3 assigns a
fresh id in that case). -/
structure ProfileRequest where
  id : Option Nat
  name : List Nat
  host : List Nat
  port : Nat
  username : List Nat
  auth : AuthMethod
  proxy : Option ProxyConfig
  notes : List Nat
deriving DecidableEq

/-- The profile persisted for a request under a given id. -/
def mkProfile (i : Nat) (r : ProfileRequest) : ServerProfile :=
  { id := i, name := r.name, host := r.host, port := r.port,
    username := r.username, auth := r.auth, proxy := r.proxy, notes := r.notes }

/-- Required-field validation (spec §3 invariant: name/host/username
non-empty, port in 1–65535). -/
def validRequest (r : ProfileRequest) : Bool :=
  !r.name.isEmpty && !r.host.isEmpty && !r.username.isEmpty
    && decide (1 ≤ r.port) && decide (r.port ≤ 65535)

/-- Save (spec §4.3): validate, then upsert by id, assigning a fresh id
when the request has none; returns the updated store and the persisted
id, or `none` for ValidationError. -/
def saveProfile (store : List ServerProfile) (r : ProfileRequest) :
    Option (List ServerProfile × Nat) :=
  if validRequest r then
    match r.id with
    | none => some (store ++ [mkProfile (freshId store) r], freshId store)
    | some i =>
        if store.any (fun p => p.id = i) then
          some (store.map (fun p => if p.id = i then mkProfile i r else p), i)
        else
          some (store ++ [mkProfile i r], i)
  else
    none

/-- Get by id (spec §4.3); `none` stands for NotFoundError. -/
def getProfile (store : List ServerProfile) (i : Nat) : Option ServerProfile :=
  store.find? (fun p => p.id = i)

/-- Delete by id (spec §4.3); `none` stands for NotFoundError. -/
def deleteProfile (store : List ServerProfile) (i : Nat) :
    Option (List ServerProfile) :=
  if store.any (fun p => p.id = i) then
    some (store.filter (fun p => p.id ≠ i))
  else
    none

/-- Concrete valid request used by witnesses. -/
def sampleRequest : ProfileRequest :=
  { id := none, name := [97], host := [104], port := 22,
    username := [117], auth := .password [115], proxy := none, notes := [] }

/-! ## SessionRegistry: disconnect

Modelled from the spec (§4.4): the registry owning live sessions is
backend state not in the frontend sources.  A session carries its owning
profile id, kind, status and whether its background read loop is running;
the registry is the list of (session id, session).  `disconnect` removes
the id from the registry — removal erases the session's read loop, so the
loop is stopped — and is total: an already-closed or unknown id is a
no-op, never an error. -/

inductive SessionKind where
  | shell
  | sftpTransfer
deriving DecidableEq

inductive SessionStatus where
  | connecting
  | connected
  | closed
  | errored
deriving DecidableEq

/-- A live session owned by the registry (spec §3). -/
structure Session where
  profileId : Nat
  kind : SessionKind
  status : SessionStatus
  readLoopRunning : Bool
deriving DecidableEq

/-- Registry of live sessions keyed by session id. -/
abbrev SessionRegistry : Type := List (Nat × Session)

/-- Look up a live session by id (spec §4.4 `operate` dispatch). -/
def lookupSession (reg : SessionRegistry) (sid : Nat) : Option Session :=
  Option.map Prod.snd (List.find? (fun e => e.1 = sid) reg)

/-- Disconnect (spec §4.4): remove the session from the registry (its
read loop with it); total, hence never an error, and a no-op on unknown
ids. -/
def disconnectOp (reg : SessionRegistry) (sid : Nat) : SessionRegistry :=
  List.filter (fun e => e.1 ≠ sid) reg

/-! ## SftpSession: file operations

Modelled from the spec (§4.6): the SFTP engine is backend code not in the
frontend sources.  The remote filesystem view is an association list from
paths to byte contents.  `readFile` returns the full byte content,
`writeFile` overwrites the entire content (creating the file when
absent, as SFTP write does), `createFile` creates an empty file and fails
if the path exists. -/

/-- Remote filesystem view: paths mapped to full byte contents. -/
abbrev RemoteFs : Type := List (List Nat × List Nat)

def fsLookup : RemoteFs → List Nat → Option (List Nat)
  | [], _ => none
  | (k, v) :: rest, p => if k = p then some v else fsLookup rest p

/-- `readFile` (spec §4.6): full byte content; `none` for a missing path. -/
def readFileOp (fs : RemoteFs) (p : List Nat) : Option (List Nat) :=
  fsLookup fs p

/-- `writeFile` (spec §4.6): overwrite the entire remote file content. -/
def writeFileOp : RemoteFs → List Nat → List Nat → RemoteFs
  | [], p, c => [(p, c)]
  | (k, v) :: rest, p, c =>
      if k = p then (p, c) :: rest else (k, v) :: writeFileOp rest p c

/-- `createFile` (spec §4.6): create an empty file, failing (`none`) if
the path already exists. -/
def createFileOp (fs : RemoteFs) (p : List Nat) : Option RemoteFs :=
  match fsLookup fs p with
  | some _ => none
  | none => some (fs ++ [(p, [])])

/-- The bytes of the ASCII string "hello". -/
def helloBytes : List Nat := [104, 101, 108, 108, 111]

/-! ## Terminal resize suppression (src/src/components/Terminal.vue)

The frontend tracks `lastCols`/`lastRows` — the dimensions last sent to
the remote (initialized at connect with the dimensions passed to
`ssh_connect`) — and the ResizeObserver callback (lines 89–103) sends
`sshResize` only when the freshly fitted dimensions differ from them. -/

/-- Resize-relevant state of a connected terminal: the dimensions last
sent and the sequence of size-change requests sent to the remote. -/
structure TermState where
  lastCols : Nat
  lastRows : Nat
  sent : List (Nat × Nat)
deriving DecidableEq

/-- One ResizeObserver firing on a visible, connected terminal
(Terminal.vue lines 96–100): if the fitted (cols, rows) differ from the
last dimensions sent, update them and send one `sshResize` request;
otherwise do nothing. -/
def resizeEvent (s : TermState) (cols rows : Nat) : TermState :=
  if cols ≠ s.lastCols ∨ rows ≠ s.lastRows then
    { lastCols := cols, lastRows := rows, sent := s.sent ++ [(cols, rows)] }
  else
    s

/-! ## Tab list invariant (src/unnamed/part_004, the App component)

`openTerminal`/`openSftp` look for an existing tab of the same type for
the same server and only push a new tab when none exists; `closeTab`
removes a tab.  The tab id built from the server id and the creation
timestamp is modelled as an explicit `newId` parameter. -/

inductive TabKind where
  | terminal
  | sftp
deriving DecidableEq

/-- An open tab: its type, the id of the server it shows, and its unique
tab id. -/
structure Tab where
  kind : TabKind
  serverId : Nat
  tabId : Nat
deriving DecidableEq

/-- `openTerminal` (part_004 lines 38–49): activate the existing terminal
tab for this server if there is one, otherwise push a new one. -/
def openTerminalOp (tabs : List Tab) (sid newId : Nat) : List Tab :=
  if tabs.any (fun t => t.kind = TabKind.terminal ∧ t.serverId = sid) then
    tabs
  else
    tabs ++ [{ kind := TabKind.terminal, serverId := sid, tabId := newId }]

/-- `openSftp` (part_004 lines 51–62): same pattern for SFTP tabs. -/
def openSftpOp (tabs : List Tab) (sid newId : Nat) : List Tab :=
  if tabs.any (fun t => t.kind = TabKind.sftp ∧ t.serverId = sid) then
    tabs
  else
    tabs ++ [{ kind := TabKind.sftp, serverId := sid, tabId := newId }]

/-- `closeTab` (part_004 lines 64–72): remove the given tab from the list
if present. -/
def closeTabOp (tabs : List Tab) (t : Tab) : List Tab :=
  tabs.erase t

/-- A user action on the tab list. -/
inductive TabAction where
  | openTerm (sid newId : Nat)
  | openFiles (sid newId : Nat)
  | close (t : Tab)

def applyTabAction (tabs : List Tab) : TabAction → List Tab
  | .openTerm sid newId => openTerminalOp tabs sid newId
  | .openFiles sid newId => openSftpOp tabs sid newId
  | .close t => closeTabOp tabs t

/-- At most one tab per (type, server id). -/
def TabUnique (tabs : List Tab) : Prop :=
  tabs.Pairwise (fun a b => a.kind ≠ b.kind ∨ a.serverId ≠ b.serverId)

/-! ## Server list search filter (src/unnamed/part_003, `filteredServers`)

The computed property lowercases and trims the query; an empty processed
query returns the full list, otherwise a server is kept when the
processed query occurs in its lowercased name, host or username.
Strings are lists of characters; JavaScript `toLowerCase`, `trim` and
`includes` are modelled by `Char.toLower`, whitespace trimming at both
ends, and contiguous-sublist containment. -/

/-- Summary row of the server list: the fields the search matches. -/
structure ServerSummary where
  name : List Char
  host : List Char
  username : List Char
deriving DecidableEq

/-- JavaScript `toLowerCase`. -/
def lowerStr (s : List Char) : List Char :=
  s.map Char.toLower

/-- JavaScript `trim`: drop whitespace from both ends. -/
def trimStr (s : List Char) : List Char :=
  ((s.dropWhile Char.isWhitespace).reverse.dropWhile Char.isWhitespace).reverse

/-- `filteredServers` (part_003 lines 14–22): process the query with
`toLowerCase().trim()`; if it is empty return the whole list, otherwise
keep the servers whose lowercased name, host or username contains it. -/
def filteredServers (servers : List ServerSummary) (query : List Char) :
    List ServerSummary :=
  let q := trimStr (lowerStr query)
  if q.isEmpty then
    servers
  else
    servers.filter (fun s =>
      decide (q <:+: lowerStr s.name) || decide (q <:+: lowerStr s.host)
        || decide (q <:+: lowerStr s.username))

/-! ## Theorems -/

theorem decodeListWith_encodeListWith (f : α → Nat) (g : Nat → α)
    (hfg : ∀ a, g (f a) = a) : ∀ l, decodeListWith g (encodeListWith f l) = l
  | [] => by simp [encodeListWith, decodeListWith]
  | a :: l => by
    rw [encodeListWith, decodeListWith]
    simp [Nat.unpair_pair, hfg a, decodeListWith_encodeListWith f g hfg l]

theorem decodeOptionWith_encodeOptionWith (f : α → Nat) (g : Nat → α)
    (hfg : ∀ a, g (f a) = a) (o : Option α) :
    decodeOptionWith g (encodeOptionWith f o) = o := by
  cases o <;> simp [encodeOptionWith, decodeOptionWith, hfg]

theorem bytesToNat_natToBytes (n : Nat) : bytesToNat (natToBytes n) = n := by
  induction n using Nat.strong_induction_on with
  | _ n ih =>
    match n with
    | 0 => simp [natToBytes, bytesToNat]
    | m + 1 =>
      rw [natToBytes, bytesToNat, ih ((m + 1) / 256) (Nat.div_lt_self (Nat.succ_pos m) (by omega))]
      omega

theorem natToBytes_lt (n : Nat) : ∀ b ∈ natToBytes n, b < 256 := by
  induction n using Nat.strong_induction_on with
  | _ n ih =>
    match n with
    | 0 => simp [natToBytes]
    | m + 1 =>
      rw [natToBytes]
      intro b hb
      rcases List.mem_cons.mp hb with h | h
      · omega
      · exact ih ((m + 1) / 256) (Nat.div_lt_self (Nat.succ_pos m) (by omega)) b h

theorem decodeAuth_encodeAuth (a : AuthMethod) : decodeAuth (encodeAuth a) = a := by
  have hid : ∀ l : List Nat, decodeListWith id (encodeListWith id l) = l :=
    decodeListWith_encodeListWith id id (fun _ => rfl)
  cases a with
  | password s => simp [encodeAuth, decodeAuth, Nat.unpair_pair, hid]
  | privateKey k p =>
      simp [encodeAuth, decodeAuth, Nat.unpair_pair, hid,
        decodeOptionWith_encodeOptionWith (encodeListWith id) (decodeListWith id) hid p]

theorem decodeProxy_encodeProxy (c : ProxyConfig) : decodeProxy (encodeProxy c) = c := by
  have hid : ∀ l : List Nat, decodeListWith id (encodeListWith id l) = l :=
    decodeListWith_encodeListWith id id (fun _ => rfl)
  have hopt : ∀ o : Option (List Nat),
      decodeOptionWith (decodeListWith id) (encodeOptionWith (encodeListWith id) o) = o :=
    decodeOptionWith_encodeOptionWith (encodeListWith id) (decodeListWith id) hid
  have hkind : ∀ k, decodeProxyKind (encodeProxyKind k) = k := by
    intro k; cases k <;> simp [encodeProxyKind, decodeProxyKind]
  simp [encodeProxy, decodeProxy, Nat.unpair_pair, hid, hopt, hkind]

theorem decodeProfile_encodeProfile (p : ServerProfile) :
    decodeProfile (encodeProfile p) = p := by
  have hid : ∀ l : List Nat, decodeListWith id (encodeListWith id l) = l :=
    decodeListWith_encodeListWith id id (fun _ => rfl)
  have hopt : ∀ o : Option ProxyConfig,
      decodeOptionWith decodeProxy (encodeOptionWith encodeProxy o) = o :=
    decodeOptionWith_encodeOptionWith encodeProxy decodeProxy decodeProxy_encodeProxy
  simp [encodeProfile, decodeProfile, Nat.unpair_pair, hid, hopt,
    decodeAuth_encodeAuth]

theorem deserializeProfiles_serializeProfiles (ps : List ServerProfile) :
    deserializeProfiles (serializeProfiles ps) = ps := by
  rw [deserializeProfiles, serializeProfiles, bytesToNat_natToBytes]
  exact decodeListWith_encodeListWith encodeProfile decodeProfile
    decodeProfile_encodeProfile ps

theorem serializeProfiles_bytes (ps : List ServerProfile) :
    ∀ b ∈ serializeProfiles ps, b < 256 :=
  natToBytes_lt (encodeListWith encodeProfile ps)

theorem decryptBytes_encryptBytes (pt : List Nat) (key nonce : Nat)
    (hpt : ∀ b ∈ pt, b < 256) :
    decryptBytes (encryptBytes pt key nonce) key nonce = pt := by
  induction pt with
  | nil => rfl
  | cons b l ih =>
      have hb : b < 256 := hpt b (List.mem_cons_self b l)
      have hpad : padOf key nonce < 256 := Nat.mod_lt _ (by omega)
      have hl := ih (fun x hx => hpt x (List.mem_cons_of_mem b hx))
      simp only [encryptBytes, decryptBytes, List.map_cons, List.map_map] at hl ⊢
      rw [List.cons_eq_cons]
      refine ⟨by omega, hl⟩

theorem withFreshIds_length (base : Nat) (l : List ServerProfile) :
    (withFreshIds base l).length = l.length := by
  induction l generalizing base with
  | nil => rfl
  | cons p rest ih => simp [withFreshIds, ih]

theorem encodeListWith_id_inj {l1 l2 : List Nat}
    (h : encodeListWith id l1 = encodeListWith id l2) : l1 = l2 := by
  have hid := decodeListWith_encodeListWith (α := Nat) id id (fun _ => rfl)
  calc l1 = decodeListWith id (encodeListWith id l1) := (hid l1).symm
    _ = decodeListWith id (encodeListWith id l2) := by rw [h]
    _ = l2 := hid l2

theorem decryptBlob_exportStore (store : List ServerProfile) (password : List Nat)
    (salt nonce iterations : Nat) :
    decryptBlob (exportStore store password salt nonce iterations) password iterations
      = some (serializeProfiles store) := by
  simp only [exportStore, decryptBlob, encrypt]
  rw [if_pos trivial]
  unfold decrypt
  rw [if_pos rfl]
  exact congrArg some (decryptBytes_encryptBytes _ _ _ (serializeProfiles_bytes store))

/-- C1: for every plaintext, password and salt (and nonce and iteration
count), decrypting the encryption of the plaintext under the key derived
from (password, salt) with that same key returns exactly the plaintext. -/
theorem decrypt_encrypt_deriveKey_roundtrip (P W : List Nat)
    (salt iterations nonce : Nat) (hP : ∀ b ∈ P, b < 256) :
    decrypt nonce (encrypt P (deriveKey W salt iterations) nonce)
      (deriveKey W salt iterations) = some P := by
  unfold decrypt encrypt
  rw [if_pos rfl]
  exact congrArg some (decryptBytes_encryptBytes P _ nonce hP)

/-- Witness for C1 at a concrete plaintext, password, salt and nonce. -/
theorem decrypt_encrypt_deriveKey_roundtrip_witness :
    (∀ b ∈ ([104, 105, 0, 255] : List Nat), b < 256) ∧
    decrypt 7 (encrypt [104, 105, 0, 255] (deriveKey [1, 2] 5 1000) 7)
      (deriveKey [1, 2] 5 1000) = some [104, 105, 0, 255] :=
  ⟨by decide,
    decrypt_encrypt_deriveKey_roundtrip [104, 105, 0, 255] [1, 2] 5 1000 7 (by decide)⟩

/-- C2: a blob exported under password W1 never decrypts under a distinct
password W2: both raw decryption and the import operation fail closed,
returning an error (`none`) and leaving no plaintext. -/
theorem import_wrong_password_fails (store store0 : List ServerProfile)
    (W1 W2 : List Nat) (salt nonce iterations : Nat) (hW : W1 ≠ W2) :
    decryptBlob (exportStore store0 W1 salt nonce iterations) W2 iterations = none
    ∧ importOp store (exportStore store0 W1 salt nonce iterations) W2 iterations
        = (store, none) := by
  have hblob : decryptBlob (exportStore store0 W1 salt nonce iterations) W2 iterations
      = none := by
    simp only [exportStore, decryptBlob, encrypt]
    rw [if_pos trivial]
    unfold decrypt
    rw [if_neg]
    intro htag
    exact hW (encodeListWith_id_inj
      (Nat.pair_eq_pair.mp (Nat.pair_eq_pair.mp htag).1).1).symm
  refine ⟨hblob, ?_⟩
  unfold importOp
  rw [hblob]

/-- Witness for C2 at two concrete distinct passwords. -/
theorem import_wrong_password_fails_witness :
    ([1] : List Nat) ≠ [2] ∧
    importOp ([] : List ServerProfile) (exportStore [] [1] 0 0 0) [2] 0 = ([], none) :=
  ⟨by decide, (import_wrong_password_fails [] [] [1] [2] 0 0 0 (by decide)).2⟩

/-- C3: import is atomic on error — when it reports no count (decryption
failed) the store it returns is exactly the input store, so in particular
the profile count is unchanged; when it succeeds it returns the count of
profiles added to the store. -/
theorem import_atomic_on_error (store : List ServerProfile)
    (blob password : List Nat) (iterations : Nat) :
    ((importOp store blob password iterations).2 = none →
      (importOp store blob password iterations).1 = store)
    ∧ (∀ n, (importOp store blob password iterations).2 = some n →
        (importOp store blob password iterations).1.length = store.length + n) := by
  unfold importOp
  cases h : decryptBlob blob password iterations with
  | none => exact ⟨fun _ => rfl, fun n hn => by simp at hn⟩
  | some pt =>
      refine ⟨fun hc => by simp at hc, fun n hn => ?_⟩
      simp only [Option.some.injEq] at hn
      simp [List.length_append, withFreshIds_length, hn]

/-- Witness for C3: importing an unparsable blob leaves an empty store empty. -/
theorem import_atomic_on_error_witness :
    (importOp ([] : List ServerProfile) [] [] 0).1 = [] :=
  (import_atomic_on_error [] [] [] 0).1 rfl

/-- C4: two exports of the same store content under the same password with
distinct fresh randomness (salt, nonce) yield different blobs as byte
sequences, yet decrypting either blob with that password yields the
identical original profile list. -/
theorem export_blobs_differ_decrypt_equal (store : List ServerProfile)
    (password : List Nat) (s1 n1 s2 n2 iterations : Nat)
    (h : (s1, n1) ≠ (s2, n2)) :
    exportStore store password s1 n1 iterations
      ≠ exportStore store password s2 n2 iterations
    ∧ Option.map deserializeProfiles
        (decryptBlob (exportStore store password s1 n1 iterations) password iterations)
        = some store
    ∧ Option.map deserializeProfiles
        (decryptBlob (exportStore store password s2 n2 iterations) password iterations)
        = some store := by
  refine ⟨?_, ?_, ?_⟩
  · intro heq
    simp only [exportStore, List.cons.injEq] at heq
    exact h (by rw [heq.2.1, heq.2.2.1])
  · rw [decryptBlob_exportStore]
    exact congrArg some (deserializeProfiles_serializeProfiles store)
  · rw [decryptBlob_exportStore]
    exact congrArg some (deserializeProfiles_serializeProfiles store)

/-- Witness for C4 at concrete distinct (salt, nonce) pairs. -/
theorem export_blobs_differ_decrypt_equal_witness :
    ((0, 0) : Nat × Nat) ≠ (0, 1) ∧
    exportStore ([] : List ServerProfile) [] 0 0 0 ≠ exportStore [] [] 0 1 0 :=
  ⟨by decide, (export_blobs_differ_decrypt_equal [] [] 0 0 0 1 0 (by decide)).1⟩

theorem mem_le_foldr_max {a : Nat} : ∀ {l : List Nat}, a ∈ l → a ≤ l.foldr max 0
  | b :: t, h => by
    rcases List.mem_cons.mp h with rfl | hm
    · exact Nat.le_max_left _ _
    · exact Nat.le_trans (mem_le_foldr_max hm) (Nat.le_max_right _ _)

theorem id_lt_freshId {p : ServerProfile} {store : List ServerProfile}
    (h : p ∈ store) : p.id < freshId store := by
  unfold freshId
  have : p.id ≤ (store.map (fun q => q.id)).foldr max 0 :=
    mem_le_foldr_max (List.mem_map_of_mem (fun q => q.id) h)
  omega

theorem find?_map_upsert (store : List ServerProfile) (i : Nat) (r : ProfileRequest)
    (h : store.any (fun p => p.id = i) = true) :
    (store.map (fun p => if p.id = i then mkProfile i r else p)).find?
      (fun p => p.id = i) = some (mkProfile i r) := by
  induction store with
  | nil => simp at h
  | cons q rest ih =>
      by_cases hq : q.id = i
      · simp [hq, mkProfile]
      · have hrest : rest.any (fun p => p.id = i) = true := by
          simp only [List.any_cons, Bool.or_eq_true, decide_eq_true_eq] at h
          rcases h with h | h
          · exact absurd h hq
          · exact h
        simpa [hq] using ih hrest

/-- C5: saving a valid profile and then getting the returned id yields a
profile equal in all fields to what was saved; deleting an id present in
the store and then getting it yields NotFoundError (`none`). -/
theorem save_get_delete_semantics (store : List ServerProfile) (r : ProfileRequest)
    (j : Nat) (hv : validRequest r = true) :
    (∀ store2 i, saveProfile store r = some (store2, i) →
      getProfile store2 i = some (mkProfile i r))
    ∧ (∀ store3, deleteProfile store j = some store3 → getProfile store3 j = none) := by
  constructor
  · intro store2 i hs
    unfold saveProfile at hs
    rw [if_pos hv] at hs
    cases hrid : r.id with
    | none =>
        rw [hrid] at hs
        simp only [Option.some.injEq, Prod.mk.injEq] at hs
        rcases hs with ⟨hstore2, hi⟩
        subst hstore2
        subst hi
        unfold getProfile
        rw [List.find?_append]
        have hnone : store.find? (fun p => p.id = freshId store) = none := by
          rw [List.find?_eq_none]
          intro x hx
          simp only [decide_eq_true_eq]
          exact Nat.ne_of_lt (id_lt_freshId hx)
        rw [hnone]
        simp [mkProfile]
    | some i0 =>
        rw [hrid] at hs
        dsimp only at hs
        by_cases hany : store.any (fun p => p.id = i0) = true
        · rw [if_pos hany] at hs
          simp only [Option.some.injEq, Prod.mk.injEq] at hs
          rcases hs with ⟨hstore2, hi⟩
          subst hstore2
          subst hi
          exact find?_map_upsert store i0 r hany
        · rw [if_neg hany] at hs
          simp only [Option.some.injEq, Prod.mk.injEq] at hs
          rcases hs with ⟨hstore2, hi⟩
          subst hstore2
          subst hi
          unfold getProfile
          rw [List.find?_append]
          have hnone : store.find? (fun p => p.id = i0) = none := by
            rw [List.find?_eq_none]
            intro x hx
            simp only [decide_eq_true_eq]
            have := (List.any_eq_false.mp (Bool.eq_false_iff.mpr hany)) x hx
            simpa using this
          rw [hnone]
          simp [mkProfile]
  · intro store3 hd
    unfold deleteProfile at hd
    by_cases hany : store.any (fun p => p.id = j) = true
    · rw [if_pos hany] at hd
      simp only [Option.some.injEq] at hd
      subst hd
      unfold getProfile
      rw [List.find?_eq_none]
      intro x hx
      simp only [decide_eq_true_eq]
      have := (List.mem_filter.mp hx).2
      simpa using this
    · rw [if_neg hany] at hd
      cases hd

/-- Witness for C5 at a concrete valid request and an empty store. -/
theorem save_get_delete_semantics_witness :
    validRequest sampleRequest = true ∧
    ((∀ store2 i, saveProfile [] sampleRequest = some (store2, i) →
        getProfile store2 i = some (mkProfile i sampleRequest))
      ∧ (∀ store3, deleteProfile [] 0 = some store3 → getProfile store3 0 = none)) :=
  ⟨by decide, save_get_delete_semantics [] sampleRequest 0 (by decide)⟩

/-- C7: disconnect is idempotent — disconnecting twice equals
disconnecting once; on an id not present in the registry it is a no-op;
and after it completes the session id is no longer in the registry (so no
read loop for it remains). -/
theorem disconnect_idempotent_noop (reg : SessionRegistry) (sid : Nat) :
    disconnectOp (disconnectOp reg sid) sid = disconnectOp reg sid
    ∧ (lookupSession reg sid = none → disconnectOp reg sid = reg)
    ∧ lookupSession (disconnectOp reg sid) sid = none := by
  refine ⟨?_, ?_, ?_⟩
  · unfold disconnectOp
    rw [List.filter_eq_self]
    intro e he
    exact (List.mem_filter.mp he).2
  · intro hnone
    unfold disconnectOp
    rw [List.filter_eq_self]
    intro e he
    unfold lookupSession at hnone
    rcases Option.map_eq_none'.mp hnone with hfind
    have := List.find?_eq_none.mp hfind e he
    simpa using this
  · unfold lookupSession
    rw [Option.map_eq_none']
    rw [List.find?_eq_none]
    intro e he
    have := (List.mem_filter.mp he).2
    simp only [decide_eq_true_eq] at this ⊢
    exact fun h => this (by simpa using h)

/-- Witness for C7's no-op conjunct at a concrete registry and unknown id. -/
theorem disconnect_idempotent_noop_witness :
    lookupSession [(1, ⟨5, SessionKind.shell, SessionStatus.connected, true⟩)] 2 = none ∧
    disconnectOp [(1, ⟨5, SessionKind.shell, SessionStatus.connected, true⟩)] 2
      = [(1, ⟨5, SessionKind.shell, SessionStatus.connected, true⟩)] :=
  ⟨by decide,
    (disconnect_idempotent_noop [(1, ⟨5, SessionKind.shell, SessionStatus.connected, true⟩)] 2).2.1
      (by decide)⟩

theorem fsLookup_writeFileOp (fs : RemoteFs) (p c : List Nat) :
    fsLookup (writeFileOp fs p c) p = some c := by
  induction fs with
  | nil => simp [writeFileOp, fsLookup]
  | cons kv rest ih =>
      obtain ⟨k, v⟩ := kv
      by_cases hk : k = p
      · simp [writeFileOp, hk, fsLookup]
      · simp [writeFileOp, hk, fsLookup, ih]

/-- C8: on a path not yet present, `createFile` succeeds and, after
`writeFile` of "hello" to that path, `readFile` returns exactly "hello";
moreover `writeFile` always overwrites the full content (`readFile` after
it returns exactly the bytes written) and `createFile` on an existing
path fails. -/
theorem create_write_read_sftp (fs : RemoteFs) (p : List Nat)
    (h : fsLookup fs p = none) :
    (∃ fs2, createFileOp fs p = some fs2 ∧
      readFileOp (writeFileOp fs2 p helloBytes) p = some helloBytes)
    ∧ (∀ (fs3 : RemoteFs) (q c : List Nat),
        readFileOp (writeFileOp fs3 q c) q = some c)
    ∧ (∀ (fs4 : RemoteFs) (q : List Nat),
        fsLookup fs4 q ≠ none → createFileOp fs4 q = none) := by
  refine ⟨⟨fs ++ [(p, [])], ?_, ?_⟩, ?_, ?_⟩
  · unfold createFileOp
    rw [h]
  · exact fsLookup_writeFileOp _ p helloBytes
  · intro fs3 q c
    exact fsLookup_writeFileOp fs3 q c
  · intro fs4 q hq
    unfold createFileOp
    cases hl : fsLookup fs4 q with
    | none => exact absurd hl hq
    | some _ => rfl

/-- Witness for C8 on the empty remote filesystem and a concrete path. -/
theorem create_write_read_sftp_witness :
    fsLookup ([] : RemoteFs) [47] = none ∧
    ∃ fs2, createFileOp ([] : RemoteFs) [47] = some fs2 ∧
      readFileOp (writeFileOp fs2 [47] helloBytes) [47] = some helloBytes :=
  ⟨rfl, (create_write_read_sftp [] [47] rfl).1⟩

/-- C6: requesting the same (cols, rows) twice in a row sends at most one
size-change request — the second call is a no-op — and in general a
request is sent exactly when the requested dimensions differ from the
last ones sent. -/
theorem resize_suppresses_duplicates (s : TermState) (cols rows : Nat) :
    resizeEvent (resizeEvent s cols rows) cols rows = resizeEvent s cols rows
    ∧ ((cols, rows) = (s.lastCols, s.lastRows) →
        (resizeEvent s cols rows).sent = s.sent)
    ∧ ((cols, rows) ≠ (s.lastCols, s.lastRows) →
        (resizeEvent s cols rows).sent = s.sent ++ [(cols, rows)]) := by
  by_cases h : cols ≠ s.lastCols ∨ rows ≠ s.lastRows
  · refine ⟨?_, ?_, ?_⟩
    · have h1 : resizeEvent s cols rows
          = { lastCols := cols, lastRows := rows, sent := s.sent ++ [(cols, rows)] } := by
        rw [resizeEvent, if_pos h]
      rw [h1, resizeEvent, if_neg (by simp)]
    · intro heq
      rcases Prod.mk.injEq .. ▸ heq with ⟨h1, h2⟩
      rcases h with h | h
      · exact absurd h1 h
      · exact absurd h2 h
    · intro _
      rw [resizeEvent, if_pos h]
  · have hstay : resizeEvent s cols rows = s := by rw [resizeEvent, if_neg h]
    push_neg at h
    refine ⟨?_, ?_, ?_⟩
    · rw [hstay, hstay]
    · intro _
      rw [hstay]
    · intro hne
      exact absurd (by rw [h.1, h.2]) hne

/-- Witness for C6 at concrete dimensions differing from the last sent. -/
theorem resize_suppresses_duplicates_witness :
    ((100, 30) : Nat × Nat) ≠ (80, 24) ∧
    (resizeEvent ⟨80, 24, []⟩ 100 30).sent = [(100, 30)] :=
  ⟨by decide, (resize_suppresses_duplicates ⟨80, 24, []⟩ 100 30).2.2 (by decide)⟩

theorem TabUnique_append_new (tabs : List Tab) (k : TabKind) (sid newId : Nat)
    (h : tabs.any (fun t => t.kind = k ∧ t.serverId = sid) = false)
    (hinv : TabUnique tabs) :
    TabUnique (tabs ++ [{ kind := k, serverId := sid, tabId := newId }]) := by
  rw [TabUnique, List.pairwise_append]
  refine ⟨hinv, List.pairwise_singleton _ _, ?_⟩
  intro a ha b hb
  have hb1 : b = { kind := k, serverId := sid, tabId := newId } := by
    simpa using hb
  subst hb1
  have := List.any_eq_false.mp h a ha
  simp only [decide_eq_true_eq] at this
  by_cases hk : a.kind = k
  · right
    intro hs
    exact this ⟨hk, hs⟩
  · left
    exact hk

/-- C9: no sequence of openTerminal / openSftp / closeTab actions ever
produces two tabs of the same type for the same server — the tab list
invariant is preserved by every action sequence. -/
theorem tab_invariant_preserved (acts : List TabAction) (tabs : List Tab)
    (hinv : TabUnique tabs) : TabUnique (acts.foldl applyTabAction tabs) := by
  induction acts generalizing tabs with
  | nil => exact hinv
  | cons act rest ih =>
      rw [List.foldl_cons]
      apply ih
      cases act with
      | openTerm sid newId =>
          rw [applyTabAction, openTerminalOp]
          by_cases h : tabs.any (fun t => t.kind = TabKind.terminal ∧ t.serverId = sid) = true
          · rw [if_pos h]
            exact hinv
          · rw [if_neg h]
            exact TabUnique_append_new tabs TabKind.terminal sid newId
              (Bool.eq_false_iff.mpr h) hinv
      | openFiles sid newId =>
          rw [applyTabAction, openSftpOp]
          by_cases h : tabs.any (fun t => t.kind = TabKind.sftp ∧ t.serverId = sid) = true
          · rw [if_pos h]
            exact hinv
          · rw [if_neg h]
            exact TabUnique_append_new tabs TabKind.sftp sid newId
              (Bool.eq_false_iff.mpr h) hinv
      | close t =>
          rw [applyTabAction, closeTabOp]
          exact hinv.sublist (List.erase_sublist t tabs)

/-- Witness for C9: opening the same terminal twice and closing a tab,
starting from the empty tab list. -/
theorem tab_invariant_preserved_witness :
    TabUnique [] ∧
    TabUnique ([TabAction.openTerm 1 10, TabAction.openTerm 1 11,
        TabAction.close ⟨TabKind.terminal, 1, 10⟩].foldl applyTabAction []) :=
  ⟨List.Pairwise.nil,
    tab_invariant_preserved
      [TabAction.openTerm 1 10, TabAction.openTerm 1 11,
        TabAction.close ⟨TabKind.terminal, 1, 10⟩] [] List.Pairwise.nil⟩

theorem toLower_whitespace {c : Char} (h : c.isWhitespace = true) :
    (Char.toLower c).isWhitespace = true := by
  simp only [Char.isWhitespace, Bool.or_eq_true, decide_eq_true_eq] at h
  rcases h with ((h | h) | h) | h <;> · subst h; decide

theorem trimStr_all_whitespace {s : List Char}
    (h : ∀ c ∈ s, c.isWhitespace = true) : trimStr s = [] := by
  unfold trimStr
  rw [List.dropWhile_eq_nil_iff.mpr h]
  rfl

/-- C10 counterexample: the claim's second branch says a server is
included iff the lowercased (untrimmed) query occurs in its lowercased
name, host or username; for the non-whitespace query " a" against a
server named "ba" the code includes the server (it matches the trimmed
query "a") even though " a" occurs in none of the fields. -/
theorem filteredServers_untrimmed_cex :
    ¬(∀ c ∈ ([' ', 'a'] : List Char), c.isWhitespace = true)
    ∧ (⟨['b', 'a'], ['h'], ['u']⟩ : ServerSummary) ∈
        filteredServers [⟨['b', 'a'], ['h'], ['u']⟩] [' ', 'a']
    ∧ ¬(lowerStr [' ', 'a'] <:+: lowerStr ['b', 'a']
        ∨ lowerStr [' ', 'a'] <:+: lowerStr ['h']
        ∨ lowerStr [' ', 'a'] <:+: lowerStr ['u']) := by
  refine ⟨by decide, ?_, by decide⟩
  decide

/-- C10 (amended): an empty or whitespace-only query returns the full
list unchanged and in order; otherwise the result is an order-preserving
sublist of the input containing exactly the servers whose lowercased
name, host or username has the lowercased, trimmed query as a
substring. -/
theorem filteredServers_spec (servers : List ServerSummary) (query : List Char) :
    ((∀ c ∈ query, c.isWhitespace = true) → filteredServers servers query = servers)
    ∧ (trimStr (lowerStr query) ≠ [] →
        (filteredServers servers query).Sublist servers
        ∧ ∀ s, s ∈ filteredServers servers query ↔
            s ∈ servers ∧ (trimStr (lowerStr query) <:+: lowerStr s.name
              ∨ trimStr (lowerStr query) <:+: lowerStr s.host
              ∨ trimStr (lowerStr query) <:+: lowerStr s.username)) := by
  constructor
  · intro hws
    have hlower : ∀ c ∈ lowerStr query, c.isWhitespace = true := by
      intro c hc
      rcases List.mem_map.mp hc with ⟨d, hd, rfl⟩
      exact toLower_whitespace (hws d hd)
    rw [filteredServers]
    simp only [trimStr_all_whitespace hlower, List.isEmpty_nil, if_true]
  · intro hne
    have hemp : (trimStr (lowerStr query)).isEmpty = false := by
      cases hq : trimStr (lowerStr query) with
      | nil => exact absurd hq hne
      | cons c t => rfl
    constructor
    · rw [filteredServers]
      simp only [hemp, Bool.false_eq_true, if_false]
      exact List.filter_sublist servers
    · intro s
      rw [filteredServers]
      simp only [hemp, Bool.false_eq_true, if_false, List.mem_filter,
        Bool.or_eq_true, decide_eq_true_eq]
      tauto

/-- Witness for C10's non-empty-query branch at a concrete query and list. -/
theorem filteredServers_spec_witness :
    trimStr (lowerStr ['A']) ≠ [] ∧
    ((filteredServers [⟨['b', 'a'], ['h'], ['u']⟩] ['A']).Sublist
        [⟨['b', 'a'], ['h'], ['u']⟩]
      ∧ ∀ s, s ∈ filteredServers [⟨['b', 'a'], ['h'], ['u']⟩] ['A'] ↔
          s ∈ [(⟨['b', 'a'], ['h'], ['u']⟩ : ServerSummary)]
            ∧ (trimStr (lowerStr ['A']) <:+: lowerStr s.name
              ∨ trimStr (lowerStr ['A']) <:+: lowerStr s.host
              ∨ trimStr (lowerStr ['A']) <:+: lowerStr s.username)) :=
  ⟨by decide, (filteredServers_spec [⟨['b', 'a'], ['h'], ['u']⟩] ['A']).2 (by decide)⟩

end MySSH
